import Mathlib

/-!
Verification of the go-ethereum swarm chunk store and simulation harness core.

The development shallowly embeds the Go sources:
  * `LocalStore.Put` / `LocalStore.Get` (swarm/storage local store),
  * the simulation `Network` (`Connect`, `DidConnect`),
  * the in-process adapter `SimNode` (`AddPeer`, `RunProtocol`).

Components used by `LocalStore` but whose code is not part of the sources
(`Chunk`, `Hasher`, `MemStore`, `DbStore`) and the retrieval-protocol server
side are modelled from the specification, as marked on each definition.

Mutable Go state is passed explicitly: each operation takes the state and
returns the updated state together with its foreground result.  Background
goroutines (the durable write scheduled by `Put`) are represented by a
scheduled-action flag in the foreground result plus an explicit function
that runs the scheduled action to completion.
-/

set_option autoImplicit false

namespace Geth

/-- Byte strings are lists of naturals (each entry standing for one byte). -/
abbrev Bytes := List Nat

/-- Little-endian decoding of a byte string, least significant byte first
(the embedding of `binary.LittleEndian.Uint64` applied to 8 bytes). -/
def leUint64 : Bytes → Nat
  | [] => 0
  | b :: rest => b + 256 * leUint64 rest

/-- Go's `int64(u)` conversion of a `uint64` value: reduce modulo `2 ^ 64`,
values at or above `2 ^ 63` wrap to negatives. -/
def int64OfUint64 (n : Nat) : Int :=
  if n % 2 ^ 64 < 2 ^ 63 then ((n % 2 ^ 64 : Nat) : Int)
  else ((n % 2 ^ 64 : Nat) : Int) - 2 ^ 64

/-- First-match association-list lookup (embeds Go map reads over the explicit
entry lists used to model the stores). -/
def assocFind {α : Type} (k : Bytes) : List (Bytes × α) → Option α
  | [] => none
  | e :: rest => if e.1 = k then some e.2 else assocFind k rest

/-- Remove every entry with the given key. -/
def removeKey {α : Type} (k : Bytes) : List (Bytes × α) → List (Bytes × α)
  | [] => []
  | e :: rest => if e.1 = k then removeKey k rest else e :: removeKey k rest

/-- Modelled from the spec: the `Chunk` value (§3 data model; the Go type is not
under the sources).  `sdata = none` is Go's nil `SData` (a pending chunk).
`wgCounter` models the value of the optional external completion counter the
chunk points to (`chunk.wg`, a `WaitGroup`); `none` means no counter attached.
`dbStoredMade` records that `Put` installed the one-shot `dbStored` signal and
`dbStoredSignaled` that the durable write fired it. -/
structure Chunk where
  key : Bytes
  sdata : Option Bytes
  size : Int := 0
  wgCounter : Option Int := none
  dbStoredMade : Bool := false
  dbStoredSignaled : Bool := false
deriving DecidableEq

/-- A pending chunk is a placeholder for an open request: its `SData` is nil. -/
def Chunk.pending (c : Chunk) : Bool := c.sdata.isNone

/-- Modelled from the spec: `MemStore` (§4.C; the Go type is not under the
sources).  Entries are kept most-recently-used first; `capacity = 0` means
unbounded. -/
structure MemStore where
  capacity : Nat
  entries : List (Bytes × Chunk)
deriving DecidableEq

/-- Modelled from the spec: `MemStore.Get` (§4.C) bumps the entry's recency and
returns the live chunk; `none` is a miss. -/
def MemStore.get (m : MemStore) (k : Bytes) : Option (Chunk × MemStore) :=
  match assocFind k m.entries with
  | none => none
  | some c => some (c, { m with entries := (k, c) :: removeKey k m.entries })

/-- Modelled from the spec: the eviction candidate scan (§4.C).  Removes the
least-recently-used entry that is not pending (pending chunks must survive,
their waiters would otherwise be stranded); `none` when every entry is
pending and nothing may be evicted. -/
def evictOne : List (Bytes × Chunk) → Option (List (Bytes × Chunk))
  | [] => none
  | e :: rest =>
      match evictOne rest with
      | some rest' => some (e :: rest')
      | none => if e.2.pending then none else some rest

/-- Modelled from the spec: `MemStore.Put` (§4.C, scenario S6).  Insert or
overwrite; at capacity evict the least-recently-used non-pending entry; when
the store is full and every entry is pending the insert fails and the store
is unchanged (S6 sanctions the failing insert, pending chunks must survive). -/
def MemStore.put (m : MemStore) (c : Chunk) : MemStore :=
  if (assocFind c.key m.entries).isSome then
    { m with entries := (c.key, c) :: removeKey c.key m.entries }
  else if m.capacity = 0 ∨ m.entries.length < m.capacity then
    { m with entries := (c.key, c) :: m.entries }
  else
    match evictOne m.entries with
    | some rest => { m with entries := (c.key, c) :: rest }
    | none => m

/-- The error taxonomy visible through the stores (§7): `notFound` for an
absent key, `ioError` for a durable-substrate failure surfaced by `Get`. -/
inductive StoreErr where
  | notFound
  | ioError
deriving DecidableEq

/-- Modelled from the spec: `DbStore` (§4.D; the Go type is not under the
sources).  `entries` maps keys to the serialized chunk bytes; `failed` records
keys whose background durable write failed, so a later `Get` surfaces the
error. -/
structure DbStore where
  entries : List (Bytes × Bytes)
  failed : List Bytes
deriving DecidableEq

/-- Modelled from the spec: `DbStore.Get` (§4.D, §7).  A stored entry is
returned; otherwise a recorded write failure surfaces as `ioError` and an
absent key as `notFound`. -/
def DbStore.get (db : DbStore) (k : Bytes) : Except StoreErr Bytes :=
  match assocFind k db.entries with
  | some d => .ok d
  | none => if k ∈ db.failed then .error .ioError else .error .notFound

/-- Modelled from the spec: `DbStore.Put` (§4.D) with an explicit write
outcome.  A successful write is idempotent: an existing entry for the key is
left as it is; otherwise the chunk bytes are stored.  A failed write stores
nothing and records the failure for the key. -/
def DbStore.putOutcome (db : DbStore) (c : Chunk) (ok : Bool) : DbStore :=
  if ok then
    match assocFind c.key db.entries with
    | some _ => db
    | none => { db with entries := (c.key, c.sdata.getD []) :: db.entries }
  else
    { db with failed := c.key :: db.failed }

/-- `LocalStore` composes the in-memory store over the durable store, together
with the hasher it embeds (`*Hasher` in the Go struct; the hash function is a
field so the development stays parametric in the SHA3 implementation, which is
outside the sources). -/
structure LocalStore where
  hash : Bytes → Bytes
  memStore : MemStore
  dbStore : DbStore

/-- The foreground outcome of `LocalStore.Put`: the chunk as the caller
observes it when `Put` returns, the updated `MemStore`, and the background
work `Put` scheduled (`dbWrite`: a goroutine performing `DbStore.Put`;
`wgDoneScheduled`: that goroutine additionally decrementing the external
counter). -/
structure PutResult where
  chunk : Chunk
  memStore : MemStore
  dbWrite : Bool
  wgDoneScheduled : Bool

/-- Embeds `LocalStore.Put` (storage local store source, lines 64-84).  The Go
chunk is a pointer, so the entry placed in the `MemStore` is the same object
the later field updates act on; the embedding therefore stores the final
chunk value.  `chunk.wg.Add(1)` is the increment of the external counter, and
the goroutine writing to `DbStore` (scheduled only for non-nil `SData`) is
returned as the `dbWrite` flag. -/
def LocalStore.put (self : LocalStore) (chunk : Chunk) : PutResult :=
  let c1 : Chunk := { chunk with dbStoredMade := true, dbStoredSignaled := false }
  let c2 : Chunk :=
    if c1.key.length = 0 then { c1 with key := self.hash (c1.sdata.getD []) } else c1
  let c3 : Chunk := { c2 with wgCounter := c2.wgCounter.map (· + 1) }
  { chunk := c3
    memStore := self.memStore.put c3
    dbWrite := c3.sdata.isSome
    wgDoneScheduled := c3.sdata.isSome && c3.wgCounter.isSome }

/-- Runs the background goroutine scheduled by `Put` (when one was scheduled):
`DbStore.Put` with the given write outcome, the `dbStored` signal (fired on
success and on failure alike, §4.D), and the `wg.Done` decrement of the
external counter. -/
def runBackground (r : PutResult) (db : DbStore) (ok : Bool) : DbStore × Chunk :=
  if r.dbWrite then
    (db.putOutcome r.chunk ok,
     { r.chunk with
         dbStoredSignaled := true
         wgCounter := if r.wgDoneScheduled then r.chunk.wgCounter.map (· - 1)
                      else r.chunk.wgCounter })
  else (db, r.chunk)

/-- `Put` followed by waiting for the scheduled durable write to complete with
the given outcome (`chunk.WaitToStore`, blocking on `dbStored`).  Returns the
resulting store state and the chunk as its owner then observes it. -/
def LocalStore.putAndWait (self : LocalStore) (c : Chunk) (ok : Bool) :
    LocalStore × Chunk :=
  let r := self.put c
  let bg := runBackground r self.dbStore ok
  ({ self with memStore := r.memStore, dbStore := bg.1 }, bg.2)

/-- The chunk `LocalStore.Get` builds from a `DbStore` hit: the stored bytes
under the requested key, with `Size` decoded little-endian from the first 8
bytes (`chunk.Size = int64(binary.LittleEndian.Uint64(chunk.SData[0:8]))`). -/
def dbChunk (k d : Bytes) : Chunk :=
  { key := k, sdata := some d, size := int64OfUint64 (leUint64 (d.take 8)) }

/-- Embeds `LocalStore.Get` (storage local store source, lines 90-102): try
`MemStore`; on miss try `DbStore`; on a durable hit decode `Size` from the
first 8 bytes of `SData` (little-endian), promote the chunk into `MemStore`
and return it; on an error from `DbStore` relay it. -/
def LocalStore.get (self : LocalStore) (key : Bytes) :
    Except StoreErr Chunk × LocalStore :=
  match self.memStore.get key with
  | some (chunk, mem') => (.ok chunk, { self with memStore := mem' })
  | none =>
    match self.dbStore.get key with
    | .error e => (.error e, self)
    | .ok data =>
      let chunk : Chunk := dbChunk key data
      (.ok chunk, { self with memStore := self.memStore.put chunk })

/-! ## Retrieval protocol, server side -/

/-- The outbound stream messages relevant to an inbound `RetrieveRequestMsg`:
`OfferedHashesMsg` (wire code 1) and `ChunkDeliveryMsg` (wire code 6), with the
fields the tests inspect (`HandoverProof`, `Hashes`, `From`, `To`; `Key`,
`SData`). -/
inductive StreamMsg where
  | offeredHashes (handoverProof : Option Unit) (hashes : Option Bytes)
      (fromVal toVal : Nat)
  | chunkDelivery (key : Bytes) (sdata : Bytes)
deriving DecidableEq

/-- The wire code of an outbound stream message (§6 reserved codes). -/
def StreamMsg.code : StreamMsg → Nat
  | .offeredHashes .. => 1
  | .chunkDelivery .. => 6

/-- Whether a message is an `OfferedHashesMsg`. -/
def StreamMsg.isOffered : StreamMsg → Bool
  | .offeredHashes .. => true
  | .chunkDelivery .. => false

/-- Modelled from the spec: the server side of the retrieval protocol (§4.G);
the streamer implementation is not under the sources, only its tests.  On an
inbound `RetrieveRequestMsg{key, skipCheck}` the receiving peer looks the key
up in its `LocalStore` and replies with exactly one message: on a miss an
empty `OfferedHashesMsg` (nil proof, nil hashes, From 0, To 0); on a hit with
`skipCheck` a `ChunkDeliveryMsg` with the stored bytes; on a hit without
`skipCheck` an `OfferedHashesMsg` offering the key with From 0, To 32 (the
hash byte length). -/
def handleRetrieveRequest (store : LocalStore) (key : Bytes) (skipCheck : Bool) :
    List StreamMsg × LocalStore :=
  match store.get key with
  | (.ok chunk, store') =>
      if skipCheck then ([.chunkDelivery key (chunk.sdata.getD [])], store')
      else ([.offeredHashes none (some key) 0 32], store')
  | (.error _, store') => ([.offeredHashes none none 0 0], store')

/-! ## Simulation Network -/

/-- Errors the simulation `Network` structural operations return (`fmt.Errorf`
in the source, classified by the spec's taxonomy in §7). -/
inductive NetErr where
  /-- "already connected": the structural `duplicate` conflict. -/
  | duplicate
  /-- a referenced node does not exist. -/
  | nodeNotFound
  /-- "one/other is not up": a connection endpoint is down (`unavailable`). -/
  | nodeNotUp
  /-- the referenced connection does not exist. -/
  | connNotFound
deriving DecidableEq

/-- A simulation `Node` entry: its identifier and `Up` flag (the adapter
reference is immaterial to the structural claims; `Connect`'s call into the
adapter is modelled as succeeding without touching the `Network` state, which
is what the source's `RLPx.Connect` does: it fires the dial and returns nil). -/
structure NetNode where
  id : Nat
  up : Bool
deriving DecidableEq

/-- A simulation `Conn` entry: the ordered pair of node ids as first created,
the `Up` flag (false on creation) and the `Reverse` flag. -/
structure Conn where
  one : Nat
  other : Nat
  up : Bool
  reverse : Bool
deriving DecidableEq

/-- Whether a `Conn` entry is the entry for the unordered pair `(a, b)`
(`ConnLabel` is symmetric: `GetConn(i,j) = GetConn(j,i)`). -/
def connMatches (c : Conn) (a b : Nat) : Bool :=
  (c.one == a && c.other == b) || (c.one == b && c.other == a)

/-- First `Conn` entry for the unordered pair, embedding the `connMap`
lookup. -/
def findConn (a b : Nat) : List Conn → Option Conn
  | [] => none
  | c :: rest => if connMatches c a b then some c else findConn a b rest

/-- In-place update of the `Conn` entry `DidConnect` found: set `Up` and
recompute `Reverse` from the caller's orientation (the Go code mutates the
entry through the pointer `GetConn` returned). -/
def didConnectUpdate (a b : Nat) : List Conn → List Conn
  | [] => []
  | c :: rest =>
      if connMatches c a b then
        { c with up := true, reverse := c.one != a } :: rest
      else c :: didConnectUpdate a b rest

/-- The simulation `Network` state: the `Nodes` and `Conns` arrays (the
`nodeMap`/`connMap` indices are embedded as first-match list lookups). -/
structure Network where
  nodes : List NetNode
  conns : List Conn
deriving DecidableEq

/-- `getNode` through the `nodeMap`. -/
def Network.getNode (net : Network) (i : Nat) : Option NetNode :=
  net.nodes.find? (fun n => n.id == i)

/-- `getConn` through the `connMap`. -/
def Network.getConn (net : Network) (a b : Nat) : Option Conn :=
  findConn a b net.conns

/-- Embeds `Network.Connect` (simulations network source, lines 1255-1286)
together with the `GetOrCreateConn` it starts with.  The conn entry is created
(appended, `Up = false`) before any check, so a failing `Connect` can still
have created it; an `Up` conn yields the duplicate error; then both endpoint
nodes must be up; finally the adapter dial is issued and `Connect` returns nil
WITHOUT setting `Up` — the source's closing `DidConnect` call is commented
out, establishment completes only when the adapter calls `DidConnect` back.
Returns the error (if any) and the possibly-mutated network. -/
def Network.connect (net : Network) (a b : Nat) : Option NetErr × Network :=
  match net.getConn a b with
  | some c =>
      if c.up then (some .duplicate, net)
      else
        match net.getNode c.one, net.getNode c.other with
        | some one, some other =>
            if !one.up then (some .nodeNotUp, net)
            else if !other.up then (some .nodeNotUp, net)
            else (none, net)
        | _, _ => (some .nodeNotFound, net)
  | none =>
      match net.getNode a, net.getNode b with
      | some one, some other =>
          let net' : Network :=
            { net with conns := net.conns ++ [{ one := a, other := b, up := false, reverse := false }] }
          if !one.up then (some .nodeNotUp, net')
          else if !other.up then (some .nodeNotUp, net')
          else (none, net')
      | _, _ => (some .nodeNotFound, net)

/-- Embeds `Network.DidConnect` (simulations network source, lines 1312-1325):
the conn must exist and not be up; `Reverse` is recomputed and `Up` set. -/
def Network.didConnect (net : Network) (a b : Nat) : Option NetErr × Network :=
  match net.getConn a b with
  | none => (some .connNotFound, net)
  | some c =>
      if c.up then (some .duplicate, net)
      else (none, { net with conns := didConnectUpdate a b net.conns })

/-! ## In-process adapter: SimNode.AddPeer -/

/-- One end of a `p2p.MsgPipe` pair wrapped by `p2p.NewMsgEventer`: the pipe
pair's serial number, which of the two ends it is, the node whose `peerFeed`
the eventer posts message events to, and the peer id it tags them with. -/
structure PipeEnd where
  pipeId : Nat
  secondEnd : Bool
  feed : Nat
  peerTag : Nat
deriving DecidableEq

/-- The per-node state the adapter claims touch: the id, whether the service
is running, and the peer table (`peers`, peer id to registered pipe end). -/
structure SimNodeState where
  id : Nat
  running : Bool
  peers : List (Nat × PipeEnd)
deriving DecidableEq

/-- A `p2p.PeerEvent` on some node's `peerFeed`. -/
inductive PeerEventType where
  | add
  | drop
deriving DecidableEq

/-- A peer event together with the node whose feed carries it. -/
structure PeerEvent where
  feedOwner : Nat
  type : PeerEventType
  peer : Nat
deriving DecidableEq

/-- A started protocol runner: the node whose protocol instance runs, the peer
it runs against, and the pipe end it owns. -/
structure Runner where
  node : Nat
  peer : Nat
  rw : PipeEnd
deriving DecidableEq

/-- The adapter-wide state: the nodes (the `SimAdapter.nodes` registry joined
with each node's peer table), a counter supplying fresh pipe pair ids, and the
accumulated peer events and started runners. -/
structure AdapterState where
  nodes : List SimNodeState
  nextPipe : Nat
  events : List PeerEvent
  runners : List Runner
deriving DecidableEq

/-- First-match lookup in a peer table (a Go map read keyed by node id). -/
def assocNatFind {α : Type} (k : Nat) : List (Nat × α) → Option α
  | [] => none
  | e :: rest => if e.1 = k then some e.2 else assocNatFind k rest

/-- First node with the given id. -/
def findNode (i : Nat) : List SimNodeState → Option SimNodeState
  | [] => none
  | n :: rest => if n.id = i then some n else findNode i rest

/-- Register a pipe end in the peer table of the (first) node with the given
id (`self.peers[peer.ID] = rw`). -/
def registerPeer (i : Nat) (peerId : Nat) (rw : PipeEnd) :
    List SimNodeState → List SimNodeState
  | [] => []
  | n :: rest =>
      if n.id = i then { n with peers := (peerId, rw) :: n.peers } :: rest
      else n :: registerPeer i peerId rw rest

/-- Embeds `SimNode.RunProtocol` (inproc adapter source, lines 347-380): the
receiving node `selfId` starts a protocol runner against `peerId` over `rw`,
and its goroutine emits a `PeerEventTypeAdd` on the receiving node's own
`peerFeed` tagged with the peer's id.  (The drop event and the `RemovePeer`
cleanup fire only when the protocol later exits and are outside the `AddPeer`
claims.) -/
def runProtocol (s : AdapterState) (selfId peerId : Nat) (rw : PipeEnd) :
    AdapterState :=
  { s with
      runners := s.runners ++ [{ node := selfId, peer := peerId, rw := rw }]
      events := s.events ++ [{ feedOwner := selfId, type := .add, peer := peerId }] }

/-- Embeds `SimNode.AddPeer` (inproc adapter source, lines 274-293).  If the
peer is already in the caller's table, do nothing; if the peer node is not
registered with the adapter, panic (`none`); if it is not running, do
nothing.  Otherwise create one `p2p.MsgPipe` pair, wrap both ends in
`MsgEventer`s posting to the CALLER's feed (`&self.peerFeed` for both), store
the peer-side end in the caller's peer table under the peer's id — the peer
node's own table is not touched — and run the peer node's protocol over the
peer-side end and the caller's protocol over the local end. -/
def AdapterState.addPeer (s : AdapterState) (selfId peerId : Nat) :
    Option AdapterState :=
  match findNode selfId s.nodes with
  | none => some s
  | some selfNode =>
    if (assocNatFind peerId selfNode.peers).isSome then some s
    else
      match findNode peerId s.nodes with
      | none => none
      | some peerNode =>
          if !peerNode.running then some s
          else
            let localRW : PipeEnd :=
              { pipeId := s.nextPipe, secondEnd := false, feed := selfId, peerTag := peerId }
            let peerRW : PipeEnd :=
              { pipeId := s.nextPipe, secondEnd := true, feed := selfId, peerTag := selfId }
            let s1 : AdapterState :=
              { s with
                  nextPipe := s.nextPipe + 1
                  nodes := registerPeer selfId peerId peerRW s.nodes }
            let s2 := runProtocol s1 peerId selfId peerRW
            some (runProtocol s2 selfId peerId localRW)

/-! ## Concrete states used by witnesses and counterexamples -/

/-- A stand-in hash for concrete instances: deterministic and fixed-arity
enough for the examples (the development is parametric in the hasher). -/
def exHash : Bytes → Bytes := fun bs => bs ++ [0]

/-- A store whose `MemStore` is full of a single pending chunk (capacity 1)
and whose `DbStore` already maps key `[1]` to bytes ending in `42`. -/
def c1CexStore : LocalStore :=
  { hash := exHash
    memStore := { capacity := 1, entries := [([3], { key := [3], sdata := none })] }
    dbStore := { entries := [([1], [0, 0, 0, 0, 0, 0, 0, 0, 42])], failed := [] } }

/-- A chunk addressed at key `[1]` carrying different bytes (ending in `7`). -/
def c1CexChunk : Chunk := { key := [1], sdata := some [0, 0, 0, 0, 0, 0, 0, 0, 7] }

/-- A store whose `MemStore` is full of a single pending chunk and whose
`DbStore` is empty: a durable-write failure is then visible to `Get`. -/
def c5Store : LocalStore :=
  { hash := exHash
    memStore := { capacity := 1, entries := [([3], { key := [3], sdata := none })] }
    dbStore := { entries := [], failed := [] } }

/-- The chunk whose durable write `c5Store` exercises. -/
def c5Chunk : Chunk := { key := [1], sdata := some [0, 0, 0, 0, 0, 0, 0, 0, 5] }

/-- An empty store (unbounded `MemStore`, empty `DbStore`). -/
def emptyStore : LocalStore := ⟨exHash, ⟨0, []⟩, ⟨[], []⟩⟩

/-- A keyless 3-byte chunk for the round-trip witness. -/
def c1WitChunk : Chunk := { key := [], sdata := some [1, 2, 3] }

/-- A resident chunk cached in `c2St1`. -/
def c2Chunk : Chunk := { key := [2], sdata := some [9] }

/-- A store whose `MemStore` holds `c2Chunk`. -/
def c2St1 : LocalStore := ⟨exHash, ⟨0, [([2], c2Chunk)]⟩, ⟨[], []⟩⟩

/-- The `MemStore` of `c2St1` after the recency bump of a `Get`. -/
def c2Mem1 : MemStore := ⟨0, [([2], c2Chunk)]⟩

/-- A store whose `MemStore` is empty and whose `DbStore` holds 9 bytes under
key `[4]`. -/
def c2St2 : LocalStore := ⟨exHash, ⟨0, []⟩, ⟨[([4], [1, 0, 0, 0, 0, 0, 0, 0, 5])], []⟩⟩

/-- A pending chunk (nil `SData`). -/
def c4Chunk : Chunk := { key := [8], sdata := none }

/-- A pending chunk carrying an external completion counter at 0. -/
def c10Chunk : Chunk := { key := [2], sdata := none, wgCounter := some 0 }

/-- The `LocalStore` state `c2St1.get [2]` leaves behind (recency bumped). -/
def c7St2 : LocalStore := ⟨exHash, c2Mem1, ⟨[], []⟩⟩

/-- A two-node simulation network, both nodes up, no connections. -/
def c6Net : Network := ⟨[⟨0, true⟩, ⟨1, true⟩], []⟩

/-- The pipe end `AddPeer` hands to the PEER node's protocol runner and
registers in the CALLER's peer table: the second pipe end, evented on the
caller's feed and tagged with the caller's id. -/
def addPeerPeerRW (s : AdapterState) (a : Nat) : PipeEnd := ⟨s.nextPipe, true, a, a⟩

/-- The pipe end `AddPeer` hands to the caller's own protocol runner: the
first pipe end, evented on the caller's feed and tagged with the peer's id. -/
def addPeerLocalRW (s : AdapterState) (a b : Nat) : PipeEnd := ⟨s.nextPipe, false, a, b⟩

/-- A two-node adapter state, both nodes running, no peers yet. -/
def c9St : AdapterState := ⟨[⟨0, true, []⟩, ⟨1, true, []⟩], 0, [], []⟩

/-! ## Helper lemmas -/

theorem assocFind_cons_self {α : Type} (k : Bytes) (v : α) (l : List (Bytes × α)) :
    assocFind k ((k, v) :: l) = some v := by
  simp [assocFind]

/-- `MemStore.Put` either makes the chunk the entry found under its key, or
(only when the store is full of pending chunks and the key is absent) changes
nothing. -/
theorem memPut_find (m : MemStore) (ch : Chunk) :
    assocFind ch.key (m.put ch).entries = some ch ∨
      (m.put ch = m ∧ assocFind ch.key m.entries = none) := by
  unfold MemStore.put
  by_cases h : (assocFind ch.key m.entries).isSome = true
  · left
    rw [if_pos h]
    exact assocFind_cons_self ch.key ch _
  · rw [if_neg h]
    by_cases hcap : m.capacity = 0 ∨ m.entries.length < m.capacity
    · left
      rw [if_pos hcap]
      exact assocFind_cons_self ch.key ch _
    · rw [if_neg hcap]
      cases hev : evictOne m.entries with
      | some rest =>
          left
          exact assocFind_cons_self ch.key ch _
      | none =>
          right
          exact ⟨rfl, Option.not_isSome_iff_eq_none.mp h⟩

theorem memGet_of_find (m : MemStore) (k : Bytes) (c : Chunk)
    (h : assocFind k m.entries = some c) :
    m.get k = some (c, { m with entries := (k, c) :: removeKey k m.entries }) := by
  unfold MemStore.get
  rw [h]

theorem memGet_of_find_none (m : MemStore) (k : Bytes)
    (h : assocFind k m.entries = none) : m.get k = none := by
  unfold MemStore.get
  rw [h]

theorem put_chunk_sdata (st : LocalStore) (c : Chunk) :
    (st.put c).chunk.sdata = c.sdata := by
  simp only [LocalStore.put]
  split <;> rfl

theorem put_chunk_key (st : LocalStore) (c : Chunk) :
    (st.put c).chunk.key
      = if c.key.length = 0 then st.hash (c.sdata.getD []) else c.key := by
  simp only [LocalStore.put]
  split <;> rfl

theorem put_chunk_wg (st : LocalStore) (c : Chunk) :
    (st.put c).chunk.wgCounter = c.wgCounter.map (· + 1) := by
  simp only [LocalStore.put]
  split <;> rfl

theorem put_dbWrite (st : LocalStore) (c : Chunk) :
    (st.put c).dbWrite = c.sdata.isSome := by
  have h := put_chunk_sdata st c
  simp only [LocalStore.put] at h ⊢
  rw [h]

theorem put_memStore (st : LocalStore) (c : Chunk) :
    (st.put c).memStore = st.memStore.put (st.put c).chunk := rfl

theorem put_wgDoneScheduled (st : LocalStore) (c : Chunk) :
    (st.put c).wgDoneScheduled = (c.sdata.isSome && c.wgCounter.isSome) := by
  have hs := put_chunk_sdata st c
  have hw := put_chunk_wg st c
  show ((st.put c).chunk.sdata.isSome && (st.put c).chunk.wgCounter.isSome)
      = (c.sdata.isSome && c.wgCounter.isSome)
  rw [hs, hw]
  cases c.wgCounter <;> rfl

theorem putAndWait_state (st : LocalStore) (c : Chunk) (ok : Bool) :
    (st.putAndWait c ok).1
      = { st with memStore := (st.put c).memStore,
                  dbStore := (runBackground (st.put c) st.dbStore ok).1 } := rfl

theorem runBackground_of_write (r : PutResult) (db : DbStore) (ok : Bool)
    (h : r.dbWrite = true) :
    runBackground r db ok
      = (db.putOutcome r.chunk ok,
         { r.chunk with
             dbStoredSignaled := true
             wgCounter := if r.wgDoneScheduled then r.chunk.wgCounter.map (· - 1)
                          else r.chunk.wgCounter }) := by
  unfold runBackground
  rw [h]
  rfl

theorem runBackground_of_no_write (r : PutResult) (db : DbStore) (ok : Bool)
    (h : r.dbWrite = false) :
    runBackground r db ok = (db, r.chunk) := by
  unfold runBackground
  rw [h]
  rfl

theorem putAndWait_chunk (st : LocalStore) (c : Chunk) (ok : Bool) :
    (st.putAndWait c ok).2 = (runBackground (st.put c) st.dbStore ok).2 := rfl

theorem localGet_memHit (h : Bytes → Bytes) (m : MemStore) (db : DbStore)
    (k : Bytes) (c : Chunk) (m' : MemStore) (hm : m.get k = some (c, m')) :
    LocalStore.get ⟨h, m, db⟩ k = (.ok c, ⟨h, m', db⟩) := by
  unfold LocalStore.get
  simp [hm]

theorem localGet_dbHit (h : Bytes → Bytes) (m : MemStore) (db : DbStore)
    (k : Bytes) (data : Bytes) (hm : m.get k = none) (hd : db.get k = .ok data) :
    LocalStore.get ⟨h, m, db⟩ k
      = (.ok (dbChunk k data), ⟨h, m.put (dbChunk k data), db⟩) := by
  unfold LocalStore.get
  simp [hm, hd]

theorem localGet_dbErr (h : Bytes → Bytes) (m : MemStore) (db : DbStore)
    (k : Bytes) (e : StoreErr) (hm : m.get k = none) (hd : db.get k = .error e) :
    LocalStore.get ⟨h, m, db⟩ k = (.error e, ⟨h, m, db⟩) := by
  unfold LocalStore.get
  simp [hm, hd]

theorem findConn_didConnectUpdate (a b : Nat) (l : List Conn) (c : Conn)
    (h : findConn a b l = some c) :
    findConn a b (didConnectUpdate a b l)
      = some { c with up := true, reverse := c.one != a } := by
  induction l with
  | nil => simp [findConn] at h
  | cons x xs ih =>
      cases hx : connMatches x a b with
      | true =>
          have hc : x = c := by simpa [findConn, hx] using h
          subst hc
          have hx2 : connMatches { x with up := true, reverse := x.one != a } a b = true := hx
          simp only [didConnectUpdate, hx, if_pos, findConn, hx2, if_true]
      | false =>
          have h2 : findConn a b xs = some c := by simpa [findConn, hx] using h
          simp only [didConnectUpdate, hx, findConn, Bool.false_eq_true, if_false]
          exact ih h2

theorem didConnect_none (net : Network) (a b : Nat)
    (hc : net.getConn a b = none) :
    net.didConnect a b = (some .connNotFound, net) := by
  unfold Network.didConnect
  rw [hc]

theorem didConnect_some (net : Network) (a b : Nat) (c : Conn)
    (hc : net.getConn a b = some c) :
    net.didConnect a b
      = if c.up then (some .duplicate, net)
        else (none, { net with conns := didConnectUpdate a b net.conns }) := by
  unfold Network.didConnect
  rw [hc]

theorem connect_of_up (net : Network) (a b : Nat) (c : Conn)
    (hc : net.getConn a b = some c) (hup : c.up = true) :
    net.connect a b = (some .duplicate, net) := by
  unfold Network.connect
  rw [hc]
  simp [hup]

theorem findNode_registerPeer_self (i peerId : Nat) (pe : PipeEnd)
    (l : List SimNodeState) :
    findNode i (registerPeer i peerId pe l)
      = (findNode i l).map (fun n => { n with peers := (peerId, pe) :: n.peers }) := by
  induction l with
  | nil => rfl
  | cons x xs ih =>
      by_cases hx : x.id = i
      · simp [findNode, registerPeer, hx]
      · simp [findNode, registerPeer, hx, ih]

theorem findNode_registerPeer_other (i j peerId : Nat) (pe : PipeEnd)
    (l : List SimNodeState) (hij : j ≠ i) :
    findNode j (registerPeer i peerId pe l) = findNode j l := by
  induction l with
  | nil => rfl
  | cons x xs ih =>
      by_cases hx : x.id = i
      · have hij2 : ¬i = j := fun hh => hij hh.symm
        simp [findNode, registerPeer, hx, hij2]
      · by_cases hxj : x.id = j
        · simp [findNode, registerPeer, hx, hxj, hij]
        · simp [findNode, registerPeer, hx, hxj, ih]

/-! ## Claim theorems -/

/-- Claim C1, counterexample to the literal statement.  The chunk
`c1CexChunk` has non-nil `SData` ending in 7, is `Put` and its durable write
awaited; yet `Get` on its key returns the bytes ending in 42: the `MemStore`
is full of a pending chunk, so the insert fails, and the `DbStore` already
holds different bytes under the same key, which the idempotent durable write
leaves in place.  `Put` performs no integrity check ("unsafe, in that the
data is not integrity checked"), so the conflicting prior entry survives. -/
theorem c1_roundtrip_counterexample :
    (((c1CexStore.putAndWait c1CexChunk true).1.get [1]).1).map Chunk.sdata
        = Except.ok (some [0, 0, 0, 0, 0, 0, 0, 0, 42]) ∧
      (c1CexStore.putAndWait c1CexChunk true).2.key = [1] ∧
      c1CexChunk.sdata ≠ some [0, 0, 0, 0, 0, 0, 0, 0, 42] := by
  refine ⟨rfl, rfl, ?_⟩
  decide

/-- Claim C1 (amended): for every chunk `c` with non-nil `SData`, after
`LocalStore.Put(c)` completes and the caller waits on `WaitToStore`,
`LocalStore.Get(c.Key)` returns a chunk whose `SData` equals `c.SData`,
provided the `DbStore` does not already map the chunk's (final) key to
different data. -/
theorem c1_roundtrip (st : LocalStore) (c : Chunk) (d : Bytes)
    (hd : c.sdata = some d)
    (hdb : assocFind (st.put c).chunk.key st.dbStore.entries = none ∨
           assocFind (st.put c).chunk.key st.dbStore.entries = some d) :
    (((st.putAndWait c true).1.get (st.put c).chunk.key).1).map Chunk.sdata
      = Except.ok (some d) := by
  have hsd : (st.put c).chunk.sdata = some d := by rw [put_chunk_sdata, hd]
  have hw : (st.put c).dbWrite = true := by rw [put_dbWrite, hd]; rfl
  have hst : (st.putAndWait c true).1
      = ⟨st.hash, st.memStore.put (st.put c).chunk,
         st.dbStore.putOutcome (st.put c).chunk true⟩ := by
    rw [putAndWait_state, runBackground_of_write _ _ _ hw]
    rfl
  rw [hst]
  rcases memPut_find st.memStore (st.put c).chunk with hf | ⟨heq, hnone⟩
  · rw [localGet_memHit _ _ _ _ _ _ (memGet_of_find _ _ _ hf)]
    simp [Except.map, hsd]
  · have hm : (st.memStore.put (st.put c).chunk).get (st.put c).chunk.key = none := by
      rw [heq]
      exact memGet_of_find_none _ _ hnone
    rcases hdb with hdb | hdb
    · have hget : (st.dbStore.putOutcome (st.put c).chunk true).get
          (st.put c).chunk.key = .ok d := by
        have hout : (st.dbStore.putOutcome (st.put c).chunk true).entries
            = ((st.put c).chunk.key, d) :: st.dbStore.entries := by
          simp [DbStore.putOutcome, hdb, hsd]
        unfold DbStore.get
        rw [hout, assocFind_cons_self]
      rw [localGet_dbHit _ _ _ _ _ hm hget]
      simp [Except.map, dbChunk]
    · have hget : (st.dbStore.putOutcome (st.put c).chunk true).get
          (st.put c).chunk.key = .ok d := by
        have hout : st.dbStore.putOutcome (st.put c).chunk true = st.dbStore := by
          simp [DbStore.putOutcome, hdb]
        rw [hout]
        unfold DbStore.get
        rw [hdb]
      rw [localGet_dbHit _ _ _ _ _ hm hget]
      simp [Except.map, dbChunk]

/-- Claim C1, witness: a fresh store, a 3-byte chunk with empty key; the
round trip returns the stored bytes. -/
theorem c1_roundtrip_witness :
    (((emptyStore.putAndWait c1WitChunk true).1.get
        (emptyStore.put c1WitChunk).chunk.key).1).map Chunk.sdata
      = Except.ok (some [1, 2, 3]) :=
  c1_roundtrip emptyStore c1WitChunk [1, 2, 3] rfl (Or.inl rfl)

/-- Claim C2: `LocalStore.Get` tries `MemStore` first; on a `MemStore` miss it
tries `DbStore`; on a `DbStore` hit it sets the chunk's `Size` to the
little-endian integer decoded from the first 8 bytes of `SData` and inserts
the chunk into `MemStore` before returning it; on a `DbStore` miss it returns
the `notFound` error and no chunk. -/
theorem c2_get_routing :
    (∀ (st : LocalStore) (k : Bytes) (c : Chunk) (m' : MemStore),
        st.memStore.get k = some (c, m') →
        (st.get k).1 = .ok c ∧ (st.get k).2.memStore = m' ∧
          (st.get k).2.dbStore = st.dbStore) ∧
    (∀ (st : LocalStore) (k d : Bytes),
        st.memStore.get k = none → st.dbStore.get k = .ok d → 8 ≤ d.length →
        (st.get k).1 = .ok (dbChunk k d) ∧
        (dbChunk k d).sdata = some d ∧
        (dbChunk k d).size = int64OfUint64 (leUint64 (d.take 8)) ∧
        (st.get k).2.memStore = st.memStore.put (dbChunk k d) ∧
        (st.get k).2.dbStore = st.dbStore) ∧
    (∀ (st : LocalStore) (k : Bytes),
        st.memStore.get k = none → st.dbStore.get k = .error .notFound →
        (st.get k).1 = .error .notFound ∧ (st.get k).2 = st) := by
  refine ⟨?_, ?_, ?_⟩
  · intro st k c m' hm
    have h2 : st.get k = (.ok c, ⟨st.hash, m', st.dbStore⟩) :=
      localGet_memHit st.hash st.memStore st.dbStore k c m' hm
    rw [h2]
    exact ⟨rfl, rfl, rfl⟩
  · intro st k d hm hd hlen
    have h2 : st.get k = (.ok (dbChunk k d), ⟨st.hash, st.memStore.put (dbChunk k d), st.dbStore⟩) :=
      localGet_dbHit st.hash st.memStore st.dbStore k d hm hd
    rw [h2]
    exact ⟨rfl, rfl, rfl, rfl, rfl⟩
  · intro st k hm hd
    have h2 : st.get k = (.error .notFound, ⟨st.hash, st.memStore, st.dbStore⟩) :=
      localGet_dbErr st.hash st.memStore st.dbStore k .notFound hm hd
    rw [h2]
    exact ⟨rfl, rfl⟩

/-- Claim C2, witness: the three routing cases at concrete stores — a
`MemStore` hit, a `DbStore` hit with its size decode and promotion, and a
miss of both tiers. -/
theorem c2_get_routing_witness :
    ((c2St1.get [2]).1 = .ok c2Chunk ∧ (c2St1.get [2]).2.memStore = c2Mem1 ∧
      (c2St1.get [2]).2.dbStore = c2St1.dbStore) ∧
    ((c2St2.get [4]).1 = .ok (dbChunk [4] [1, 0, 0, 0, 0, 0, 0, 0, 5]) ∧
      (dbChunk [4] [1, 0, 0, 0, 0, 0, 0, 0, 5]).sdata = some [1, 0, 0, 0, 0, 0, 0, 0, 5] ∧
      (dbChunk [4] [1, 0, 0, 0, 0, 0, 0, 0, 5]).size
        = int64OfUint64 (leUint64 ([1, 0, 0, 0, 0, 0, 0, 0, 5].take 8)) ∧
      (c2St2.get [4]).2.memStore = c2St2.memStore.put (dbChunk [4] [1, 0, 0, 0, 0, 0, 0, 0, 5]) ∧
      (c2St2.get [4]).2.dbStore = c2St2.dbStore) ∧
    ((emptyStore.get [7]).1 = .error .notFound ∧ (emptyStore.get [7]).2 = emptyStore) :=
  ⟨c2_get_routing.1 c2St1 [2] c2Chunk c2Mem1 (by decide),
   c2_get_routing.2.1 c2St2 [4] [1, 0, 0, 0, 0, 0, 0, 0, 5] (by decide) rfl
     (by decide),
   c2_get_routing.2.2 emptyStore [7] (by decide) rfl⟩

/-- Claim C3: a chunk passed to `LocalStore.Put` with an empty key and non-nil
`SData` leaves `Put` with its key computed as the hash of `SData`; a chunk
passed with a non-empty key keeps that key unchanged. -/
theorem c3_put_key :
    (∀ (st : LocalStore) (c : Chunk) (d : Bytes),
        c.key = [] → c.sdata = some d → (st.put c).chunk.key = st.hash d) ∧
    (∀ (st : LocalStore) (c : Chunk), c.key ≠ [] → (st.put c).chunk.key = c.key) := by
  constructor
  · intro st c d hk hd
    rw [put_chunk_key, hk]
    simp [hd]
  · intro st c hk
    rw [put_chunk_key]
    have hlen : ¬c.key.length = 0 := by
      simpa [List.length_eq_zero] using hk
    rw [if_neg hlen]

/-- Claim C3, witness: the keyless chunk gets the example hash of its bytes,
and the chunk with key `[1]` keeps it. -/
theorem c3_put_key_witness :
    (emptyStore.put c1WitChunk).chunk.key = emptyStore.hash [1, 2, 3] ∧
    (emptyStore.put c5Chunk).chunk.key = c5Chunk.key :=
  ⟨c3_put_key.1 emptyStore c1WitChunk [1, 2, 3] rfl rfl,
   c3_put_key.2 emptyStore c5Chunk (by decide)⟩

/-- Claim C4: `LocalStore.Put` schedules a background `DbStore` write exactly
when `SData` is non-nil; for a pending chunk (nil `SData`) no `DbStore.Put` is
issued and the `DbStore` state is unchanged by the `Put`. -/
theorem c4_pending_not_stored (st : LocalStore) (c : Chunk) :
    ((st.put c).dbWrite = c.sdata.isSome) ∧
    (c.sdata = none → ∀ ok : Bool, (st.putAndWait c ok).1.dbStore = st.dbStore) := by
  refine ⟨put_dbWrite st c, ?_⟩
  intro hnil ok
  have hw : (st.put c).dbWrite = false := by rw [put_dbWrite, hnil]; rfl
  rw [putAndWait_state, runBackground_of_no_write _ _ _ hw]

/-- Claim C4, witness: the pending chunk `c4Chunk` schedules no write and
leaves the empty `DbStore` untouched. -/
theorem c4_pending_not_stored_witness :
    ((emptyStore.put c4Chunk).dbWrite = c4Chunk.sdata.isSome) ∧
    (emptyStore.putAndWait c4Chunk true).1.dbStore = emptyStore.dbStore :=
  ⟨(c4_pending_not_stored emptyStore c4Chunk).1,
   (c4_pending_not_stored emptyStore c4Chunk).2 rfl true⟩

/-- Claim C5: the foreground of `LocalStore.Put` is error-free and does not
depend on the outcome of the scheduled durable write — the resulting
`MemStore` and the chunk the caller observes are identical for a successful
and a failed write; a failed durable write is visible only to a later `Get`
on the same key (which surfaces `ioError` where a successful write lets the
same `Get` return the stored bytes). -/
theorem c5_put_error_free :
    (∀ (st : LocalStore) (c : Chunk) (ok1 ok2 : Bool),
        (st.putAndWait c ok1).1.memStore = (st.putAndWait c ok2).1.memStore ∧
        (st.putAndWait c ok1).2 = (st.putAndWait c ok2).2) ∧
    (((c5Store.putAndWait c5Chunk false).1.get [1]).1 = .error .ioError ∧
      (((c5Store.putAndWait c5Chunk true).1.get [1]).1).map Chunk.sdata
        = .ok (some [0, 0, 0, 0, 0, 0, 0, 0, 5])) := by
  refine ⟨?_, rfl, rfl⟩
  intro st c ok1 ok2
  refine ⟨rfl, ?_⟩
  cases h : (st.put c).dbWrite with
  | false =>
      rw [putAndWait_chunk st c ok1, putAndWait_chunk st c ok2,
          runBackground_of_no_write _ _ _ h, runBackground_of_no_write _ _ _ h]
  | true =>
      rw [putAndWait_chunk st c ok1, putAndWait_chunk st c ok2,
          runBackground_of_write _ _ _ h, runBackground_of_write _ _ _ h]

/-- Claim C10: for a chunk carrying an external completion counter, `Put`
increments the counter by exactly one; the matching background decrement is
scheduled exactly when `SData` is non-nil; a pending chunk with a counter is
left incremented with no background task to decrement it. -/
theorem c10_wg_counter (st : LocalStore) (c : Chunk)
    (h : c.wgCounter.isSome = true) :
    ((st.put c).chunk.wgCounter = c.wgCounter.map (· + 1)) ∧
    ((st.put c).wgDoneScheduled = c.sdata.isSome) ∧
    (c.sdata = none → ∀ ok : Bool,
        (st.putAndWait c ok).2.wgCounter = c.wgCounter.map (· + 1)) := by
  refine ⟨put_chunk_wg st c, ?_, ?_⟩
  · rw [put_wgDoneScheduled, h, Bool.and_true]
  · intro hnil ok
    have hw : (st.put c).dbWrite = false := by rw [put_dbWrite, hnil]; rfl
    rw [putAndWait_chunk, runBackground_of_no_write _ _ _ hw]
    exact put_chunk_wg st c

/-- Claim C10, witness: the pending counter-carrying chunk `c10Chunk` comes
out of `Put` with its counter at 1 and no scheduled decrement. -/
theorem c10_wg_counter_witness :
    ((emptyStore.put c10Chunk).chunk.wgCounter = c10Chunk.wgCounter.map (· + 1)) ∧
    ((emptyStore.put c10Chunk).wgDoneScheduled = c10Chunk.sdata.isSome) ∧
    (emptyStore.putAndWait c10Chunk true).2.wgCounter
      = c10Chunk.wgCounter.map (· + 1) :=
  ⟨(c10_wg_counter emptyStore c10Chunk rfl).1,
   (c10_wg_counter emptyStore c10Chunk rfl).2.1,
   (c10_wg_counter emptyStore c10Chunk rfl).2.2 rfl true⟩

/-- Claim C6, counterexample to the literal statement.  On the two-node
network `c6Net` (both nodes up) a successful `Connect(0,1)` followed
immediately by a second `Connect(0,1)` does NOT return the duplicate error:
`Connect` never sets the conn's `Up` flag itself (its closing `DidConnect`
call is commented out in the source), so the second call finds the conn still
down and redials. -/
theorem c6_connect_counterexample :
    (c6Net.connect 0 1).1 = none ∧
    ((c6Net.connect 0 1).2.connect 0 1).1 = none ∧
    ((c6Net.connect 0 1).2.connect 0 1).1 ≠ some NetErr.duplicate := by
  refine ⟨rfl, rfl, ?_⟩
  decide

/-- Claim C6 (amended): for two nodes of the simulation network, after a
successful `Connect(a,b)` whose establishment has completed — the adapter
called `DidConnect(a,b)` back, setting the conn `Up` — a further
`Connect(a,b)` returns the duplicate ("already connected") error and leaves
the network state (the `Conn` entry and all `Up` flags) unchanged. -/
theorem c6_connect_duplicate (net : Network) (a b : Nat) (n1 n2 : Network)
    (_h1 : net.connect a b = (none, n1))
    (h2 : n1.didConnect a b = (none, n2)) :
    n2.connect a b = (some .duplicate, n2) := by
  cases hc : n1.getConn a b with
  | none =>
      rw [didConnect_none n1 a b hc] at h2
      simp at h2
  | some c =>
      rw [didConnect_some n1 a b c hc] at h2
      by_cases hup : c.up = true
      · rw [if_pos hup] at h2
        simp at h2
      · rw [if_neg hup] at h2
        have hn2 : n2 = { n1 with conns := didConnectUpdate a b n1.conns } :=
          (congrArg Prod.snd h2).symm
        subst hn2
        have hg : ({ n1 with conns := didConnectUpdate a b n1.conns } : Network).getConn a b
            = some { c with up := true, reverse := c.one != a } :=
          findConn_didConnectUpdate a b n1.conns c hc
        exact connect_of_up _ a b _ hg rfl

/-- Claim C6, witness: the concrete establishment on `c6Net` followed by a
third `Connect`, which returns duplicate and the unchanged network. -/
theorem c6_connect_duplicate_witness :
    Network.connect ⟨[⟨0, true⟩, ⟨1, true⟩], [⟨0, 1, true, false⟩]⟩ 0 1
      = (some NetErr.duplicate, ⟨[⟨0, true⟩, ⟨1, true⟩], [⟨0, 1, true, false⟩]⟩) :=
  c6_connect_duplicate ⟨[⟨0, true⟩, ⟨1, true⟩], []⟩ 0 1
    ⟨[⟨0, true⟩, ⟨1, true⟩], [⟨0, 1, false, false⟩]⟩
    ⟨[⟨0, true⟩, ⟨1, true⟩], [⟨0, 1, true, false⟩]⟩
    rfl rfl

/-- Claim C7: an inbound `RetrieveRequestMsg{key, SkipCheck = true}` at a peer
whose `LocalStore` holds the key is answered by exactly one
`ChunkDeliveryMsg` carrying that key and the stored chunk's `SData` (wire
code 6), and no `OfferedHashesMsg` is sent for that request. -/
theorem c7_skipcheck_delivery (st : LocalStore) (key : Bytes) (c : Chunk)
    (st' : LocalStore) (d : Bytes)
    (hget : st.get key = (.ok c, st')) (hd : c.sdata = some d) :
    handleRetrieveRequest st key true = ([.chunkDelivery key d], st') ∧
    StreamMsg.code (.chunkDelivery key d) = 6 ∧
    ∀ m ∈ (handleRetrieveRequest st key true).1, m.isOffered = false := by
  have h1 : handleRetrieveRequest st key true = ([.chunkDelivery key d], st') := by
    unfold handleRetrieveRequest
    rw [hget]
    simp [hd]
  refine ⟨h1, rfl, ?_⟩
  rw [h1]
  intro m hm
  rw [List.mem_singleton] at hm
  subst hm
  rfl

/-- Claim C7, witness: the store `c2St1` holds bytes `[9]` under key `[2]`; a
skip-check retrieve request for `[2]` yields the single delivery message. -/
theorem c7_skipcheck_delivery_witness :
    handleRetrieveRequest c2St1 [2] true = ([.chunkDelivery [2] [9]], c7St2) ∧
    StreamMsg.code (.chunkDelivery [2] [9]) = 6 ∧
    StreamMsg.isOffered (.chunkDelivery [2] [9]) = false :=
  let h := c7_skipcheck_delivery c2St1 [2] c2Chunk c7St2 [9] rfl rfl
  ⟨h.1, h.2.1, h.2.2 (.chunkDelivery [2] [9]) (by rw [h.1]; exact List.mem_singleton.mpr rfl)⟩

/-- Claim C8: an inbound `RetrieveRequestMsg` whose key is absent from the
receiving node's `LocalStore` is answered by exactly one empty
`OfferedHashesMsg` (`HandoverProof` nil, `Hashes` nil, `From` 0, `To` 0, wire
code 1), and no `ChunkDeliveryMsg` is ever sent for that request. -/
theorem c8_miss_offered (st : LocalStore) (key : Bytes) (st' : LocalStore)
    (sk : Bool) (hget : st.get key = (.error .notFound, st')) :
    handleRetrieveRequest st key sk = ([.offeredHashes none none 0 0], st') ∧
    StreamMsg.code (.offeredHashes none none 0 0) = 1 ∧
    ∀ m ∈ (handleRetrieveRequest st key sk).1, m.isOffered = true := by
  have h1 : handleRetrieveRequest st key sk = ([.offeredHashes none none 0 0], st') := by
    unfold handleRetrieveRequest
    rw [hget]
  refine ⟨h1, rfl, ?_⟩
  rw [h1]
  intro m hm
  rw [List.mem_singleton] at hm
  subst hm
  rfl

/-- Claim C8, witness: a retrieve request for the absent key `[7]` on the
empty store yields the single empty offered-hashes reply. -/
theorem c8_miss_offered_witness :
    handleRetrieveRequest emptyStore [7] false
      = ([.offeredHashes none none 0 0], emptyStore) ∧
    StreamMsg.code (.offeredHashes none none 0 0) = 1 ∧
    StreamMsg.isOffered (.offeredHashes none none 0 0) = true :=
  let h := c8_miss_offered emptyStore [7] emptyStore false rfl
  ⟨h.1, h.2.1, h.2.2 (.offeredHashes none none 0 0) (by rw [h.1]; exact List.mem_singleton.mpr rfl)⟩

/-- Claim C9, counterexample to the literal statement.  On the two-node
adapter state `c9St`, `AddPeer(0, 1)` succeeds and registers a pipe end in
node 0's table, but node 1's peer table stays EMPTY: the source stores only
`self.peers[peer.ID] = peerRW` and `RunProtocol` registers nothing, so no end
is registered in the peer node's table under the calling node's id. -/
theorem c9_addPeer_counterexample :
    ((c9St.addPeer 0 1).map (fun s2 => (findNode 1 s2.nodes).map (fun n => n.peers))
        = some (some [])) ∧
    ((c9St.addPeer 0 1).map (fun s2 => (findNode 0 s2.nodes).map (fun n => n.peers.map Prod.fst))
        = some (some [1])) := by
  exact ⟨rfl, rfl⟩

/-- Claim C9 (amended): `AddPeer(peerNode)` on a node that does not yet have
`peerNode` as a peer, with `peerNode` registered and running, creates exactly
one pipe pair (both ends evented on the calling node's feed), registers the
peer-side end in the CALLING node's peer table under `peerNode`'s id — every
other node's table, in particular `peerNode`'s, is unchanged — starts two
protocol runners (the peer node over the peer-side end, the caller over the
local end), and a `PeerEventAdd` is emitted on both nodes' feeds. -/
theorem c9_addPeer_effects (s : AdapterState) (a b : Nat) (na nb : SimNodeState)
    (ha : findNode a s.nodes = some na)
    (hb : findNode b s.nodes = some nb)
    (hnew : assocNatFind b na.peers = none)
    (hrun : nb.running = true) :
    s.addPeer a b = some
      { nodes := registerPeer a b (addPeerPeerRW s a) s.nodes
        nextPipe := s.nextPipe + 1
        events := s.events ++ [⟨b, .add, a⟩, ⟨a, .add, b⟩]
        runners := s.runners ++ [⟨b, a, addPeerPeerRW s a⟩, ⟨a, b, addPeerLocalRW s a b⟩] } ∧
    findNode a (registerPeer a b (addPeerPeerRW s a) s.nodes)
      = some { na with peers := (b, addPeerPeerRW s a) :: na.peers } ∧
    ∀ j, j ≠ a → findNode j (registerPeer a b (addPeerPeerRW s a) s.nodes)
      = findNode j s.nodes := by
  refine ⟨?_, ?_, ?_⟩
  · unfold AdapterState.addPeer
    simp [ha, hb, hnew, hrun, runProtocol, addPeerPeerRW, addPeerLocalRW]
  · rw [findNode_registerPeer_self, ha]
    rfl
  · intro j hj
    exact findNode_registerPeer_other a j b (addPeerPeerRW s a) s.nodes hj

/-- Claim C9, witness: the concrete `AddPeer(0, 1)` on `c9St`, with node 1's
table left as found. -/
theorem c9_addPeer_effects_witness :
    c9St.addPeer 0 1 = some
      { nodes := registerPeer 0 1 (addPeerPeerRW c9St 0) c9St.nodes
        nextPipe := 1
        events := [⟨1, .add, 0⟩, ⟨0, .add, 1⟩]
        runners := [⟨1, 0, addPeerPeerRW c9St 0⟩, ⟨0, 1, addPeerLocalRW c9St 0 1⟩] } ∧
    findNode 0 (registerPeer 0 1 (addPeerPeerRW c9St 0) c9St.nodes)
      = some ⟨0, true, [(1, addPeerPeerRW c9St 0)]⟩ ∧
    findNode 1 (registerPeer 0 1 (addPeerPeerRW c9St 0) c9St.nodes)
      = findNode 1 c9St.nodes :=
  let h := c9_addPeer_effects c9St 0 1 ⟨0, true, []⟩ ⟨1, true, []⟩ rfl rfl rfl rfl
  ⟨h.1, h.2.1, h.2.2 1 (by decide)⟩

end Geth
